import Mathlib

/-!
Verification of the SmartSpend expense tracker (`app.py`).

The embedding below translates the persistence layer, the authentication
functions and the summary engine of `app.py` into Lean definitions:

* the SQLite state (two tables, `users` and `expenses`) becomes a `DB`
  structure holding the rows of both tables plus the AUTOINCREMENT counters;
* `hashlib.sha256(...).hexdigest()` is implemented bit-for-bit on `Nat`
  (32-bit words represented as naturals reduced by `% 2^32`);
* Python `datetime` values are represented by a calendar date together with
  a rational number of seconds since midnight, linearised through the
  proleptic-Gregorian ordinal (the same day numbering as
  `datetime.date.toordinal`); `timedelta(days = n)` subtraction and the
  pandas `Timestamp` comparisons of `get_expense_summary` act on that
  linearisation;
* fallible Python calls (`.strip()` on `None`, the `CHECK(amount >= 0)` and
  `UNIQUE` constraint violations raised by sqlite) return `Except PyError`;
* monetary amounts are rationals.
-/

/-! ## SHA-256 (`hashlib.sha256(password.encode()).hexdigest()`) -/

/-- `2^32`; 32-bit words are naturals kept below this modulus. -/
def M32 : Nat := 4294967296

/-- Rotate a 32-bit word right by `n` positions (the low `n` bits wrap to the
top). -/
def rotr32 (n x : Nat) : Nat := (x >>> n) ||| ((x % 2 ^ n) <<< (32 - n))

/-- SHA-256 `Ch(x, y, z)`. -/
def shaCh (x y z : Nat) : Nat := (x &&& y) ^^^ ((x ^^^ 4294967295) &&& z)

/-- SHA-256 `Maj(x, y, z)`. -/
def shaMaj (x y z : Nat) : Nat := (x &&& y) ^^^ (x &&& z) ^^^ (y &&& z)

/-- SHA-256 `Σ0`. -/
def bigSigma0 (x : Nat) : Nat := rotr32 2 x ^^^ rotr32 13 x ^^^ rotr32 22 x

/-- SHA-256 `Σ1`. -/
def bigSigma1 (x : Nat) : Nat := rotr32 6 x ^^^ rotr32 11 x ^^^ rotr32 25 x

/-- SHA-256 `σ0`. -/
def smallSigma0 (x : Nat) : Nat := rotr32 7 x ^^^ rotr32 18 x ^^^ (x >>> 3)

/-- SHA-256 `σ1`. -/
def smallSigma1 (x : Nat) : Nat := rotr32 17 x ^^^ rotr32 19 x ^^^ (x >>> 10)

/-- The 64 SHA-256 round constants (the fractional parts of the cube roots of
the first 64 primes, scaled to 32 bits; written in decimal). -/
def sha256K : List Nat :=
  [1116352408, 1899447441, 3049323471, 3921009573, 961987163,
   1508970993, 2453635748, 2870763221, 3624381080, 310598401,
   607225278, 1426881987, 1925078388, 2162078206, 2614888103,
   3248222580, 3835390401, 4022224774, 264347078, 604807628,
   770255983, 1249150122, 1555081692, 1996064986, 2554220882,
   2821834349, 2952996808, 3210313671, 3336571891, 3584528711,
   113926993, 338241895, 666307205, 773529912, 1294757372,
   1396182291, 1695183700, 1986661051, 2177026350, 2456956037,
   2730485921, 2820302411, 3259730800, 3345764771, 3516065817,
   3600352804, 4094571909, 275423344, 430227734, 506948616,
   659060556, 883997877, 958139571, 1322822218, 1537002063,
   1747873779, 1955562222, 2024104815, 2227730452, 2361852424,
   2428436474, 2756734187, 3204031479, 3329325298]

/-- UTF-8 encoding of one Unicode code point (Python `str.encode()`). -/
def utf8Bytes (c : Nat) : List Nat :=
  if c < 128 then [c]
  else if c < 2048 then [192 ||| (c >>> 6), 128 ||| (c &&& 63)]
  else if c < 65536 then [224 ||| (c >>> 12), 128 ||| ((c >>> 6) &&& 63), 128 ||| (c &&& 63)]
  else [240 ||| (c >>> 18), 128 ||| ((c >>> 12) &&& 63), 128 ||| ((c >>> 6) &&& 63),
        128 ||| (c &&& 63)]

/-- UTF-8 bytes of a string (Python `password.encode()`). -/
def strBytes (s : String) : List Nat := (s.data.map (fun c => utf8Bytes c.toNat)).flatten

/-- SHA-256 padding: append `0x80`, zeros, then the 64-bit big-endian bit length. -/
def padMessage (ms : List Nat) : List Nat :=
  let L := ms.length * 8
  let padlen := (64 - (ms.length + 9) % 64) % 64
  ms ++ [128] ++ List.replicate padlen 0 ++
    [(L >>> 56) % 256, (L >>> 48) % 256, (L >>> 40) % 256, (L >>> 32) % 256,
     (L >>> 24) % 256, (L >>> 16) % 256, (L >>> 8) % 256, L % 256]

/-- Big-endian grouping of bytes into 32-bit words. -/
def bytesToWords : List Nat → List Nat
  | a :: b :: c :: d :: rest => (((a * 256 + b) * 256 + c) * 256 + d) :: bytesToWords rest
  | _ => []

/-- Split a word list into blocks of 16 words (fuel-driven for structural recursion). -/
def chunks16 : Nat → List Nat → List (List Nat)
  | 0, _ => []
  | _, [] => []
  | fuel + 1, l => l.take 16 :: chunks16 fuel (l.drop 16)

/-- Extend a 16-word block to the 64-word message schedule. -/
def extendSchedule : Nat → List Nat → List Nat
  | 0, w => w
  | n + 1, w =>
    let t := (smallSigma1 (w.getD (w.length - 2) 0) + w.getD (w.length - 7) 0 +
              smallSigma0 (w.getD (w.length - 15) 0) + w.getD (w.length - 16) 0) % M32
    extendSchedule n (w ++ [t])

/-- The eight 32-bit working variables of the SHA-256 compression function. -/
structure Hash8 where
  a : Nat
  b : Nat
  c : Nat
  d : Nat
  e : Nat
  f : Nat
  g : Nat
  h : Nat

/-- One SHA-256 round, consuming a `(round constant, schedule word)` pair. -/
def shaRound (st : Hash8) (kw : Nat × Nat) : Hash8 :=
  let t1 := (st.h + bigSigma1 st.e + shaCh st.e st.f st.g + kw.1 + kw.2) % M32
  let t2 := (bigSigma0 st.a + shaMaj st.a st.b st.c) % M32
  ⟨(t1 + t2) % M32, st.a, st.b, st.c, (st.d + t1) % M32, st.e, st.f, st.g⟩

/-- SHA-256 compression of one 512-bit block. -/
def compressBlock (hs : Hash8) (block : List Nat) : Hash8 :=
  let w := extendSchedule 48 block
  let s := (sha256K.zip w).foldl shaRound hs
  ⟨(hs.a + s.a) % M32, (hs.b + s.b) % M32, (hs.c + s.c) % M32, (hs.d + s.d) % M32,
   (hs.e + s.e) % M32, (hs.f + s.f) % M32, (hs.g + s.g) % M32, (hs.h + s.h) % M32⟩

/-- The SHA-256 initial hash value (fractional parts of the square roots of
the first 8 primes, scaled to 32 bits; written in decimal). -/
def shaH0 : Hash8 :=
  ⟨1779033703, 3144134277, 1013904242, 2773480762,
   1359893119, 2600822924, 528734635, 1541459225⟩

/-- The eight 32-bit words of the SHA-256 digest of a string. -/
def sha256Words (s : String) : List Nat :=
  let ws := bytesToWords (padMessage (strBytes s))
  let hf := (chunks16 ws.length ws).foldl compressBlock shaH0
  [hf.a, hf.b, hf.c, hf.d, hf.e, hf.f, hf.g, hf.h]

/-- Big-endian value of a word list (digest words combined into one natural). -/
def natOfWords : List Nat → Nat
  | [] => 0
  | w :: ws => w * M32 ^ ws.length + natOfWords ws

/-- The SHA-256 digest of a string as a 256-bit natural number. -/
def sha256Nat (s : String) : Nat := natOfWords (sha256Words s)

/-- Lower-case hexadecimal digit. -/
def hexDigitChar (n : Nat) : Char := if n < 10 then Char.ofNat (48 + n) else Char.ofNat (87 + n)

/-- Fixed-width big-endian hexadecimal rendering (`hexdigest` of the digest). -/
def hexChars : Nat → Nat → List Char
  | 0, _ => []
  | k + 1, v => hexDigitChar (v / 16 ^ k % 16) :: hexChars k v

/-- `app.py` `hash_password`: `hashlib.sha256(password.encode()).hexdigest()`. -/
def hash_password (password : String) : String := ⟨hexChars 64 (sha256Nat password)⟩

/-- `app.py` `verify_password`: recompute the hash and compare for string equality. -/
def verify_password (password password_hash : String) : Bool :=
  hash_password password == password_hash

/-! ## Dates and datetimes -/

/-- A Python `datetime.date`: a calendar date, day granularity. -/
structure PyDate where
  year : Nat
  month : Nat
  day : Nat
deriving DecidableEq

/-- Gregorian leap-year test. -/
def isLeapYear (y : Nat) : Bool := (y % 4 == 0 && y % 100 != 0) || y % 400 == 0

/-- Month lengths of a year. -/
def monthLengths (y : Nat) : List Nat :=
  [31, if isLeapYear y then 29 else 28, 31, 30, 31, 30, 31, 31, 30, 31, 30, 31]

/-- Days in the year strictly before month `m`. -/
def daysBeforeMonth (y m : Nat) : Nat := ((monthLengths y).take (m - 1)).sum

/-- Proleptic-Gregorian day number, identical to Python `datetime.date.toordinal`
(`0001-01-01` is day 1). -/
def toOrdinal (d : PyDate) : Nat :=
  (d.year - 1) * 365 + (d.year - 1) / 4 - (d.year - 1) / 100 + (d.year - 1) / 400 +
    daysBeforeMonth d.year d.month + d.day

/-- A Python `datetime.datetime`: a date plus the time of day in seconds
(`0 ≤ tod < 86400`), exact to any subdivision as a rational. -/
structure PyDateTime where
  date : PyDate
  tod : ℚ

/-- Absolute time of a datetime in seconds, the linearisation under which Python
computes `today - timedelta(days = n)` and pandas compares `Timestamp`s. -/
def dtToSec (t : PyDateTime) : ℚ := (toOrdinal t.date : ℚ) * 86400 + t.tod

/-! ## Python-level errors and `None`-able strings -/

/-- Exceptions the embedded fragment can raise: `AttributeError` from calling
`.strip()` on `None`, `sqlite3.IntegrityError` from a violated constraint. -/
inductive PyError where
  | attributeError
  | integrityError
deriving DecidableEq

/-- Python `x.strip()` where `x` may be `None`: `None` has no `.strip` attribute. -/
def pyStrip : Option String → Except PyError String
  | some s => Except.ok s.trim
  | none => Except.error PyError.attributeError

/-! ## Database state (`expenses.db`) -/

/-- A row of the `users` table. -/
structure User where
  id : Nat
  username : String
  password_hash : String
  email : Option String
deriving DecidableEq

/-- A row of the `expenses` table.  The `date` column stores the ISO-8601 text
`expense_date.isoformat()`; since `pd.to_datetime` parses that text back to the
same calendar date, the row is modelled with the date value itself.  `user_id`
is nullable (legacy rows may lack an owner until migration). -/
structure Expense where
  id : Nat
  category : String
  amount : ℚ
  date : PyDate
  description : String
  user_id : Option Nat
deriving DecidableEq

/-- The whole database: the rows of both tables in insertion (rowid) order plus
the AUTOINCREMENT counters. -/
structure DB where
  users : List User
  expenses : List Expense
  nextUserId : Nat
  nextExpenseId : Nat
deriving DecidableEq

/-! ## Schema manager -/

/-- `app.py` `init_db`, data part: the `CREATE TABLE` statements create empty
relations and touch no rows, so the only row-level effect is
`UPDATE expenses SET user_id = 1 WHERE user_id IS NULL`, applied
unconditionally to every orphaned row. -/
def init_db (db : DB) : DB :=
  { db with
    expenses := db.expenses.map (fun e =>
      if e.user_id = none then { e with user_id := some 1 } else e) }

/-! ## User store -/

/-- The storage layer's `INSERT INTO users`: the `UNIQUE` constraint on
`username` raises `sqlite3.IntegrityError` on a duplicate, otherwise the row is
appended with the next AUTOINCREMENT id. -/
def usersInsert (db : DB) (username password_hash : String) (email : Option String) :
    Except PyError DB :=
  if db.users.any (fun u => u.username == username) then
    Except.error PyError.integrityError
  else
    Except.ok { db with
      users := db.users ++ [⟨db.nextUserId, username, password_hash, email⟩],
      nextUserId := db.nextUserId + 1 }

/-- `app.py` `create_user`: hash the password, insert, catch
`sqlite3.IntegrityError` and convert it to `False`. -/
def create_user (db : DB) (username password : String) (email : Option String) : DB × Bool :=
  match usersInsert db username (hash_password password) email with
  | Except.ok db2 => (db2, true)
  | Except.error _ => (db, false)

/-- `app.py` `authenticate_user`: fetch the row with the given username
(`fetchone`, i.e. the first match), verify the password, return the id on
success and `None` otherwise. -/
def authenticate_user (db : DB) (username password : String) : Option Nat :=
  match db.users.find? (fun u => u.username == username) with
  | some u => if verify_password password u.password_hash then some u.id else none
  | none => none

/-! ## Expense store -/

/-- Stable insertion step for `ORDER BY date DESC` (descending on the stored
ISO-8601 text, which for calendar dates coincides with descending ordinal). -/
def insertDateDesc (e : Expense) : List Expense → List Expense
  | [] => [e]
  | x :: xs =>
    if toOrdinal e.date ≤ toOrdinal x.date then x :: insertDateDesc e xs else e :: x :: xs

/-- `ORDER BY date DESC` as an insertion sort. -/
def sortByDateDesc (l : List Expense) : List Expense := l.foldr insertDateDesc []

/-- `app.py` `get_current_user_expenses`:
`SELECT * FROM expenses WHERE user_id = ? ORDER BY date DESC` (a SQL comparison
with a NULL `user_id` is not true, so orphaned rows never match). -/
def get_current_user_expenses (db : DB) (user_id : Nat) : List Expense :=
  sortByDateDesc (db.expenses.filter (fun e => e.user_id == some user_id))

/-- The storage layer's `INSERT INTO expenses`: the column constraint
`CHECK(amount >= 0)` raises `sqlite3.IntegrityError` when violated, otherwise
the row is appended with the next AUTOINCREMENT id. -/
def expensesInsert (db : DB) (category : String) (amount : ℚ) (date : PyDate)
    (description : String) (user_id : Option Nat) : Except PyError DB :=
  if amount < 0 then Except.error PyError.integrityError
  else
    Except.ok { db with
      expenses := db.expenses ++ [⟨db.nextExpenseId, category, amount, date, description, user_id⟩],
      nextExpenseId := db.nextExpenseId + 1 }

/-- `app.py` `add_expense`: evaluates `category.strip()` then
`description.strip()` (each raising `AttributeError` when the value is `None`),
then inserts the row.  Errors propagate to the caller uncaught. -/
def add_expense (db : DB) (category : Option String) (amount : ℚ) (expense_date : PyDate)
    (description : Option String) (user_id : Nat) : Except PyError DB := do
  let cat ← pyStrip category
  let desc ← pyStrip description
  expensesInsert db cat amount expense_date desc (some user_id)

/-- `app.py` `delete_expense`:
`DELETE FROM expenses WHERE id=? AND user_id=?`, returning `rowcount > 0`. -/
def delete_expense (db : DB) (expense_id user_id : Nat) : DB × Bool :=
  let rowcount :=
    (db.expenses.filter (fun e => e.id == expense_id && e.user_id == some user_id)).length
  ({ db with
      expenses := db.expenses.filter (fun e => !(e.id == expense_id && e.user_id == some user_id)) },
   decide (0 < rowcount))

/-! ## Summary engine -/

/-- Code-point lexicographic comparison of character lists (Python `<` on `str`). -/
def charListLt : List Char → List Char → Bool
  | [], [] => false
  | [], _ :: _ => true
  | _ :: _, [] => false
  | a :: as, b :: bs =>
    if a.toNat < b.toNat then true
    else if a.toNat == b.toNat then charListLt as bs else false

/-- Lexicographic comparison of strings. -/
def strLtB (s t : String) : Bool := charListLt s.data t.data

/-- Number of occurrences of `x` in `l`. -/
def countEq (x : String) (l : List String) : Nat := (l.filter (fun y => y == x)).length

/-- `df['category'].mode().iloc[0]`: pandas returns the modes sorted ascending,
so `.iloc[0]` is the lexicographically smallest among the most frequent values;
the `'N/A'` arm mirrors the guard for an empty mode series. -/
def modeCategory : List String → String
  | [] => "N/A"
  | x :: xs =>
    (x :: xs).foldl
      (fun acc y =>
        if countEq y (x :: xs) > countEq acc (x :: xs) ||
           (countEq y (x :: xs) == countEq acc (x :: xs) && strLtB y acc) then y else acc)
      x

/-- The dictionary returned by `get_expense_summary`. -/
structure Summary where
  total_expenses : ℚ
  average_expense : ℚ
  expense_count : Nat
  top_category : String
  largest_expense : ℚ
  monthly_expenses : ℚ
  last_30_days : ℚ
  last_7_days : ℚ
  daily_average : ℚ
deriving DecidableEq

/-- `df['amount'].sum()`. -/
def sumAmounts (l : List Expense) : ℚ := (l.map Expense.amount).sum

/-- `df['amount'].max()` (the list is nonempty whenever this is reached). -/
def maxAmount (l : List Expense) : ℚ :=
  match l.map Expense.amount with
  | [] => 0
  | a :: as => as.foldl max a

/-- `app.py` `get_expense_summary`.  `now` is the value `datetime.now()`
returns.  The pandas filters `df['date'] >= today - timedelta(days=n)` compare
the midnight instant of each stored date with the cutoff instant
`now - n days`, which retains the time-of-day of `now`; the current-month
filter compares month and year fields; `daily_average` reflects the Python
truthiness test `last_30_days_expenses / 30 if last_30_days_expenses else 0`. -/
def get_expense_summary (now : PyDateTime) (db : DB) (user_id : Nat) : Option Summary :=
  let df := get_current_user_expenses db user_id
  if df.isEmpty then none
  else
    let last30cut : ℚ := dtToSec now - 30 * 86400
    let last7cut : ℚ := dtToSec now - 7 * 86400
    let monthly := sumAmounts (df.filter (fun e =>
      e.date.month == now.date.month && e.date.year == now.date.year))
    let l30 := sumAmounts (df.filter (fun e => decide ((toOrdinal e.date : ℚ) * 86400 ≥ last30cut)))
    let l7 := sumAmounts (df.filter (fun e => decide ((toOrdinal e.date : ℚ) * 86400 ≥ last7cut)))
    some
      { total_expenses := sumAmounts df
        average_expense := sumAmounts df / (df.length : ℚ)
        expense_count := df.length
        top_category := modeCategory (df.map Expense.category)
        largest_expense := maxAmount df
        monthly_expenses := monthly
        last_30_days := l30
        last_7_days := l7
        daily_average := if l30 = 0 then 0 else l30 / 30 }

/-- The spec's reading of the trailing windows (for comparison with the code):
date-only comparison with inclusive lower bound `reference_date - n` days. -/
def specDateOnlyTrailingTotal (n : Nat) (today : PyDate) (l : List Expense) : ℚ :=
  sumAmounts (l.filter (fun e => decide ((toOrdinal e.date : ℚ) ≥ (toOrdinal today : ℚ) - n)))

/-- Boundedness of the eight working variables by the 32-bit modulus. -/
def hash8Bounded (hs : Hash8) : Prop :=
  hs.a < M32 ∧ hs.b < M32 ∧ hs.c < M32 ∧ hs.d < M32 ∧
  hs.e < M32 ∧ hs.f < M32 ∧ hs.g < M32 ∧ hs.h < M32

/-! ## Concrete states used by the counterexamples and witnesses -/

/-- A legacy expense row with no owner (`user_id` NULL). -/
def expC2 : Expense := ⟨1, "Food", 5, ⟨2024, 1, 1⟩, "", none⟩

/-- A database holding one orphaned expense and no users at all. -/
def dbC2 : DB := ⟨[], [expC2], 1, 2⟩

/-- A database whose only expense belongs to user 2. -/
def dbW1 : DB := ⟨[], [⟨1, "Food", 5, ⟨2024, 3, 1⟩, "", some 2⟩], 1, 2⟩

/-- A database with a single expense of user 1 dated 2024-03-01. -/
def dbC3 : DB := ⟨[], [⟨1, "Food", 5, ⟨2024, 3, 1⟩, "", some 1⟩], 1, 2⟩

/-- A reference instant exactly 30 days after the expense of `dbC3`, at 01:00. -/
def nowC3 : PyDateTime := ⟨⟨2024, 3, 31⟩, 3600⟩

/-- The same reference date at exactly midnight. -/
def nowW3 : PyDateTime := ⟨⟨2024, 3, 31⟩, 0⟩

/-- The summary of `dbC3` as seen from `nowW3`. -/
def sW3 : Summary := ⟨5, 5, 1, "Food", 5, 5, 5, 0, 1/6⟩

/-- A copy of `dbC3` used by the `daily_average` witness. -/
def dbW4 : DB := ⟨[], [⟨1, "Food", 5, ⟨2024, 3, 1⟩, "", some 1⟩], 1, 2⟩

/-- A reference instant at 01:00, 30 days after the expense of `dbW4`. -/
def nowW4 : PyDateTime := ⟨⟨2024, 3, 31⟩, 3600⟩

/-- The summary of `dbW4` as seen from `nowW4` (empty trailing windows). -/
def sW4 : Summary := ⟨5, 5, 1, "Food", 5, 5, 0, 0, 0⟩

/-- A user store holding one registered user. -/
def dbW5 : DB := ⟨[⟨1, "real_user", hash_password "secret1", none⟩], [], 2, 1⟩

/-- A user store holding the user `alice`. -/
def dbW6 : DB := ⟨[⟨1, "alice", hash_password "secret1", none⟩], [], 2, 1⟩

/-- A single expense of amount 100 on 2024-05-10 owned by user 1. -/
def expW7 : Expense := ⟨1, "Food", 100, ⟨2024, 5, 10⟩, "lunch", some 1⟩

/-- A database holding only `expW7`. -/
def dbW7 : DB := ⟨[], [expW7], 1, 2⟩

/-- A reference instant on the date of `expW7`, at midnight. -/
def nowW7 : PyDateTime := ⟨⟨2024, 5, 10⟩, 0⟩

/-- The summary of `dbW7` as seen from `nowW7`. -/
def sW7 : Summary := ⟨100, 100, 1, "Food", 100, 100, 100, 100, 10/3⟩

/-- An empty database. -/
def dbW9 : DB := ⟨[], [], 1, 1⟩

/-! ## Helper lemmas -/

set_option maxRecDepth 4000

lemma mem_insertDateDesc {a e : Expense} {l : List Expense} :
    a ∈ insertDateDesc e l ↔ a = e ∨ a ∈ l := by
  induction l with
  | nil => simp [insertDateDesc]
  | cons x xs ih =>
    simp only [insertDateDesc]
    split
    · rw [List.mem_cons, ih, List.mem_cons]
      tauto
    · rw [List.mem_cons]

lemma mem_sortByDateDesc {a : Expense} {l : List Expense} : a ∈ sortByDateDesc l ↔ a ∈ l := by
  induction l with
  | nil => simp [sortByDateDesc]
  | cons x xs ih =>
    have h : sortByDateDesc (x :: xs) = insertDateDesc x (sortByDateDesc xs) := rfl
    rw [h, mem_insertDateDesc, ih, List.mem_cons]

lemma mem_get_current_user_expenses {db : DB} {uid : Nat} {e : Expense}
    (h : e ∈ get_current_user_expenses db uid) : e ∈ db.expenses ∧ e.user_id = some uid := by
  have h1 : e ∈ db.expenses.filter (fun e => e.user_id == some uid) := mem_sortByDateDesc.mp h
  refine ⟨List.mem_of_mem_filter h1, ?_⟩
  have h2 := List.of_mem_filter h1
  simpa using h2

lemma compressBlock_bounded (hs : Hash8) (b : List Nat) : hash8Bounded (compressBlock hs b) := by
  simp only [hash8Bounded, compressBlock]
  refine ⟨?_, ?_, ?_, ?_, ?_, ?_, ?_, ?_⟩ <;> exact Nat.mod_lt _ (by decide)

lemma foldl_compress_bounded (blocks : List (List Nat)) (hs : Hash8) (h : hash8Bounded hs) :
    hash8Bounded (blocks.foldl compressBlock hs) := by
  induction blocks generalizing hs with
  | nil => exact h
  | cons b bs ih =>
    rw [List.foldl_cons]
    exact ih _ (compressBlock_bounded hs b)

lemma sha256Words_bounded (s : String) : ∀ w ∈ sha256Words s, w < M32 := by
  intro w hw
  simp only [sha256Words, List.mem_cons, List.not_mem_nil, or_false] at hw
  obtain ⟨h1, h2, h3, h4, h5, h6, h7, h8⟩ :=
    foldl_compress_bounded
      (chunks16 (bytesToWords (padMessage (strBytes s))).length
        (bytesToWords (padMessage (strBytes s))))
      shaH0
      (by exact ⟨by decide, by decide, by decide, by decide, by decide, by decide, by decide,
        by decide⟩)
  rcases hw with h | h | h | h | h | h | h | h <;> subst h <;> assumption

lemma natOfWords_lt (ws : List Nat) (h : ∀ w ∈ ws, w < M32) :
    natOfWords ws < M32 ^ ws.length := by
  induction ws with
  | nil => simp [natOfWords]
  | cons w ws ih =>
    have hw := h w (List.mem_cons_self w ws)
    have hrest := ih (fun x hx => h x (List.mem_cons_of_mem w hx))
    simp only [natOfWords, List.length_cons]
    calc w * M32 ^ ws.length + natOfWords ws
        < w * M32 ^ ws.length + M32 ^ ws.length := Nat.add_lt_add_left hrest _
      _ = (w + 1) * M32 ^ ws.length := by ring
      _ ≤ M32 * M32 ^ ws.length := Nat.mul_le_mul_right _ hw
      _ = M32 ^ (ws.length + 1) := by ring

lemma sha256Nat_lt (s : String) : sha256Nat s < 2 ^ 256 := by
  have h := natOfWords_lt (sha256Words s) (sha256Words_bounded s)
  have hlen : (sha256Words s).length = 8 := by simp [sha256Words]
  rw [hlen] at h
  have hM : M32 ^ 8 = 2 ^ 256 := by norm_num [M32]
  rw [hM] at h
  exact h

lemma window_cutoff_pos30 (a b : Nat) (t : ℚ) (ht0 : 0 < t) (ht1 : t < 86400) :
    ((a : ℚ) * 86400 ≥ (b : ℚ) * 86400 + t - 30 * 86400) ↔ ((a : ℚ) ≥ (b : ℚ) - 29) := by
  constructor
  · intro h
    have h2 : (b : ℚ) - 30 < (a : ℚ) := by linarith
    have h3 : (b : ℤ) - 30 < (a : ℤ) := by exact_mod_cast h2
    have h4 : (b : ℤ) - 29 ≤ (a : ℤ) := by omega
    have h5 : (b : ℚ) - 29 ≤ (a : ℚ) := by exact_mod_cast h4
    linarith
  · intro h
    linarith

lemma window_cutoff_pos7 (a b : Nat) (t : ℚ) (ht0 : 0 < t) (ht1 : t < 86400) :
    ((a : ℚ) * 86400 ≥ (b : ℚ) * 86400 + t - 7 * 86400) ↔ ((a : ℚ) ≥ (b : ℚ) - 6) := by
  constructor
  · intro h
    have h2 : (b : ℚ) - 7 < (a : ℚ) := by linarith
    have h3 : (b : ℤ) - 7 < (a : ℤ) := by exact_mod_cast h2
    have h4 : (b : ℤ) - 6 ≤ (a : ℤ) := by omega
    have h5 : (b : ℚ) - 6 ≤ (a : ℚ) := by exact_mod_cast h4
    linarith
  · intro h
    linarith

lemma windowFilterEq (today : PyDate) (df : List Expense) (c : ℚ) (m : Nat)
    (hiff : ∀ a : Nat, ((a : ℚ) * 86400 ≥ c) ↔ ((a : ℚ) ≥ (toOrdinal today : ℚ) - (m : ℚ))) :
    sumAmounts (df.filter (fun e => decide ((toOrdinal e.date : ℚ) * 86400 ≥ c))) =
      specDateOnlyTrailingTotal m today df := by
  unfold specDateOnlyTrailingTotal
  congr 1
  apply List.filter_congr
  intro e he
  rw [decide_eq_decide]
  exact hiff (toOrdinal e.date)

/-! ## Claim theorems -/

/-- Claim C1: per-user data isolation.  For distinct owners `A ≠ B`,
`get_current_user_expenses db A` never contains an expense owned by `B`, and
`delete_expense eid A` applied to an expense owned by `B` (`eid` naming only
rows owned by `B`, as the PRIMARY KEY guarantees) returns `false` and leaves
the whole expense store, in particular B's row, unchanged. -/
theorem per_user_data_isolation (db : DB) (A B : Nat) (hAB : A ≠ B) :
    (∀ e ∈ get_current_user_expenses db A, e.user_id ≠ some B) ∧
    (∀ eid : Nat,
      (∃ ex ∈ db.expenses, ex.id = eid ∧ ex.user_id = some B) →
      (∀ ex ∈ db.expenses, ex.id = eid → ex.user_id = some B) →
      delete_expense db eid A = (db, false)) := by
  constructor
  · intro e he
    have h3 : e.user_id = some A := (mem_get_current_user_expenses he).2
    rw [h3]
    intro hc
    exact hAB (Option.some.injEq A B ▸ hc)
  · intro eid hex hall
    have hnone : ∀ ex ∈ db.expenses, ¬((ex.id == eid && ex.user_id == some A) = true) := by
      intro ex hmem
      by_cases hid : ex.id = eid
      · have hB : ex.user_id = some B := hall ex hmem hid
        simp [hB, Ne.symm hAB]
      · simp [hid]
    have hfilt0 : db.expenses.filter (fun e => e.id == eid && e.user_id == some A) = [] :=
      List.filter_eq_nil_iff.mpr hnone
    have hfilt1 : db.expenses.filter (fun e => !(e.id == eid && e.user_id == some A)) =
        db.expenses := by
      rw [List.filter_eq_self]
      intro a ha
      rw [Bool.not_eq_true']
      exact Bool.eq_false_iff.mpr (hnone a ha)
    simp only [delete_expense, hfilt0, hfilt1, List.length_nil]
    constructor

theorem per_user_data_isolation_witness :
    delete_expense dbW1 1 1 = (dbW1, false) :=
  (per_user_data_isolation dbW1 1 2 (by decide)).2 1 (by decide) (by decide)

/-- Claim C2 counterexample: `init_db` run on a store holding one orphaned
expense while no user with identifier 1 exists does not delete the orphan,
but assigns it owner 1 — an owner identifier that corresponds to no existing
user — contrary to the claimed orphan resolution. -/
theorem init_db_orphan_counterexample :
    (¬ ∃ u ∈ dbC2.users, u.id = 1) ∧
    (init_db dbC2).expenses ≠ [] ∧
    (∃ e ∈ (init_db dbC2).expenses, e.user_id = some 1 ∧
      ¬ ∃ u ∈ (init_db dbC2).users, u.id = 1) := by
  decide

/-- Claim C2 as amended: `init_db` assigns every orphaned (NULL-owner) expense
to user identifier 1 unconditionally, whether or not such a user exists; no
row is deleted and no expense remains with a NULL owner, while rows that
already had an owner are kept unchanged. -/
theorem init_db_orphans_assigned_unconditionally (db : DB) :
    (init_db db).expenses.length = db.expenses.length ∧
    (∀ e ∈ (init_db db).expenses, e.user_id ≠ none) ∧
    (∀ e ∈ db.expenses, e.user_id = none →
      { e with user_id := some 1 } ∈ (init_db db).expenses) ∧
    (∀ e ∈ db.expenses, e.user_id ≠ none → e ∈ (init_db db).expenses) := by
  refine ⟨by simp [init_db], ?_, ?_, ?_⟩
  · intro e he
    rcases List.mem_map.mp he with ⟨e0, h0, heq⟩
    by_cases h : e0.user_id = none
    · rw [← heq]
      simp [h]
    · rw [← heq]
      simp [h]
  · intro e he h
    exact List.mem_map.mpr ⟨e, he, by simp [h]⟩
  · intro e he h
    exact List.mem_map.mpr ⟨e, he, by simp [h]⟩

theorem init_db_orphans_assigned_unconditionally_witness :
    { expC2 with user_id := some 1 } ∈ (init_db dbC2).expenses :=
  (init_db_orphans_assigned_unconditionally dbC2).2.2.1 expC2 (by decide) (by decide)

/-- Claim C3 counterexample: with a reference instant whose time of day is
01:00, an expense dated exactly 30 calendar days earlier is excluded from
`last_30_days` (the code's cutoff keeps the time-of-day of the instant), while
the spec's date-only inclusive window includes it. -/
theorem trailing_window_counterexample :
    (get_expense_summary nowC3 dbC3 1).map Summary.last_30_days = some 0 ∧
    specDateOnlyTrailingTotal 30 nowC3.date (get_current_user_expenses dbC3 1) = 5 ∧
    (get_expense_summary nowC3 dbC3 1).map Summary.last_30_days ≠
      some (specDateOnlyTrailingTotal 30 nowC3.date (get_current_user_expenses dbC3 1)) := by
  have hdf : get_current_user_expenses dbC3 1 = [⟨1, "Food", 5, ⟨2024, 3, 1⟩, "", some 1⟩] := by
    decide
  have h30 : specDateOnlyTrailingTotal 30 nowC3.date (get_current_user_expenses dbC3 1) = 5 := by
    rw [hdf]
    norm_num [specDateOnlyTrailingTotal, sumAmounts, toOrdinal, daysBeforeMonth, monthLengths,
      isLeapYear, nowC3, List.filter]
  have hsum : get_expense_summary nowC3 dbC3 1 = some ⟨5, 5, 1, "Food", 5, 5, 0, 0, 0⟩ := by
    simp only [get_expense_summary, hdf]
    norm_num [sumAmounts, maxAmount, modeCategory, dtToSec, toOrdinal, daysBeforeMonth,
      monthLengths, isLeapYear, nowC3, List.filter]
  refine ⟨by rw [hsum]; rfl, h30, ?_⟩
  rw [hsum, h30]
  norm_num

/-- Claim C3 as amended: the trailing-window totals compare the midnight
instant of each expense date against `reference_instant - N days`, which keeps
the reference instant's time of day.  When that time of day is exactly
midnight the totals coincide with the spec's date-only inclusive window of
`N` days; when it is past midnight the boundary day falls out and the window
is the date-only inclusive window of `N - 1` days. -/
theorem trailing_window_totals (now : PyDateTime) (db : DB) (uid : Nat) (s : Summary)
    (h0 : 0 ≤ now.tod) (h1 : now.tod < 86400)
    (hs : get_expense_summary now db uid = some s) :
    (now.tod = 0 →
      s.last_30_days = specDateOnlyTrailingTotal 30 now.date (get_current_user_expenses db uid) ∧
      s.last_7_days = specDateOnlyTrailingTotal 7 now.date (get_current_user_expenses db uid)) ∧
    (0 < now.tod →
      s.last_30_days = specDateOnlyTrailingTotal 29 now.date (get_current_user_expenses db uid) ∧
      s.last_7_days = specDateOnlyTrailingTotal 6 now.date (get_current_user_expenses db uid)) := by
  simp only [get_expense_summary] at hs
  split at hs
  · simp at hs
  · rw [Option.some.injEq] at hs
    subst hs
    refine ⟨fun htod => ⟨?_, ?_⟩, fun htod => ⟨?_, ?_⟩⟩
    · exact windowFilterEq now.date _ _ 30 (fun a => by
        unfold dtToSec
        rw [htod]
        push_cast
        constructor <;> intro h <;> linarith)
    · exact windowFilterEq now.date _ _ 7 (fun a => by
        unfold dtToSec
        rw [htod]
        push_cast
        constructor <;> intro h <;> linarith)
    · exact windowFilterEq now.date _ _ 29 (fun a => by
        unfold dtToSec
        push_cast
        exact window_cutoff_pos30 a (toOrdinal now.date) now.tod htod h1)
    · exact windowFilterEq now.date _ _ 6 (fun a => by
        unfold dtToSec
        push_cast
        exact window_cutoff_pos7 a (toOrdinal now.date) now.tod htod h1)

theorem trailing_window_totals_witness :
    sW3.last_30_days = specDateOnlyTrailingTotal 30 nowW3.date (get_current_user_expenses dbC3 1) :=
  ((trailing_window_totals nowW3 dbC3 1 sW3 (by decide) (by decide) (by
    have hdf : get_current_user_expenses dbC3 1 = [⟨1, "Food", 5, ⟨2024, 3, 1⟩, "", some 1⟩] := by
      decide
    simp only [get_expense_summary, hdf, sW3]
    norm_num [sumAmounts, maxAmount, modeCategory, dtToSec, toOrdinal, daysBeforeMonth,
      monthLengths, isLeapYear, nowW3, List.filter])).1 rfl).1

/-- Claim C4: whenever `get_expense_summary` returns a summary (the expense
set is non-empty), `daily_average` equals `last_30_days / 30` exactly,
including the case `last_30_days = 0` where both sides are `0` and no division
error occurs. -/
theorem daily_average_formula (now : PyDateTime) (db : DB) (uid : Nat) (s : Summary)
    (hs : get_expense_summary now db uid = some s) :
    s.daily_average = s.last_30_days / 30 := by
  simp only [get_expense_summary] at hs
  split at hs
  · simp at hs
  · rw [Option.some.injEq] at hs
    subst hs
    show (if _ = (0 : ℚ) then (0 : ℚ) else _ / 30) = _
    split
    · rename_i hz
      show (0 : ℚ) = _ / 30
      rw [hz]
      rw [zero_div]
    · rfl

theorem daily_average_formula_witness :
    sW4.daily_average = sW4.last_30_days / 30 :=
  daily_average_formula nowW4 dbW4 1 sW4 (by
    have hdf : get_current_user_expenses dbW4 1 = [⟨1, "Food", 5, ⟨2024, 3, 1⟩, "", some 1⟩] := by
      decide
    simp only [get_expense_summary, hdf, sW4]
    norm_num [sumAmounts, maxAmount, modeCategory, dtToSec, toOrdinal, daysBeforeMonth,
      monthLengths, isLeapYear, nowW4, List.filter])

/-- Claim C5: enumeration resistance of `authenticate_user`.  In any state of
the user store, authenticating with a username that matches no stored user and
authenticating with a username whose every matching row carries a different
password hash both return `none` — the same absent sentinel, so the return
value cannot distinguish the two failure causes. -/
theorem authenticate_enumeration_resistance (db : DB) (ghost pw real wrongpw : String)
    (hghost : ∀ u ∈ db.users, u.username ≠ ghost)
    (hwrong : ∀ u ∈ db.users, u.username = real → u.password_hash ≠ hash_password wrongpw) :
    authenticate_user db ghost pw = none ∧
    authenticate_user db real wrongpw = none ∧
    authenticate_user db ghost pw = authenticate_user db real wrongpw := by
  have h1 : authenticate_user db ghost pw = none := by
    unfold authenticate_user
    have hf : db.users.find? (fun u => u.username == ghost) = none := by
      rw [List.find?_eq_none]
      intro u hu
      simpa using hghost u hu
    rw [hf]
  have h2 : authenticate_user db real wrongpw = none := by
    unfold authenticate_user
    cases hf : db.users.find? (fun u => u.username == real) with
    | none => rfl
    | some u =>
      have hmem := List.mem_of_find?_eq_some hf
      have hname : u.username = real := by simpa using List.find?_some hf
      have hneq := hwrong u hmem hname
      have hv : verify_password wrongpw u.password_hash = false := by
        unfold verify_password
        exact beq_eq_false_iff_ne.mpr (fun hc => hneq hc.symm)
      simp [hv]
  exact ⟨h1, h2, by rw [h1, h2]⟩

theorem authenticate_enumeration_resistance_witness :
    authenticate_user dbW5 "ghost" "anything" = none ∧
    authenticate_user dbW5 "real_user" "wrong_password" = none ∧
    authenticate_user dbW5 "ghost" "anything" =
      authenticate_user dbW5 "real_user" "wrong_password" :=
  authenticate_enumeration_resistance dbW5 "ghost" "anything" "real_user" "wrong_password"
    (by decide) (by decide)

/-- Claim C6: `create_user` called with a username that already exists in the
user store returns `false` without raising (the `UNIQUE` violation from the
storage layer is caught and converted to a boolean) and leaves the store
unchanged. -/
theorem create_user_duplicate_username (db : DB) (username password : String)
    (email : Option String) (h : ∃ u ∈ db.users, u.username = username) :
    create_user db username password email = (db, false) := by
  unfold create_user usersInsert
  obtain ⟨u, hu, hname⟩ := h
  have hany : db.users.any (fun u => u.username == username) = true :=
    List.any_eq_true.mpr ⟨u, hu, by simpa using hname⟩
  rw [hany]
  rfl

theorem create_user_duplicate_username_witness :
    create_user dbW6 "alice" "secret2" none = (dbW6, false) :=
  create_user_duplicate_username dbW6 "alice" "secret2" none (by decide)

/-- Claim C7: `get_expense_summary` returns `none` exactly when the owner's
expense set is empty, and for a set holding a single expense of amount 100
dated on the reference instant's date it returns a summary with
`total = average = largest = 100`, `count = 1` and `current_month_total = 100`. -/
theorem summary_empty_iff_and_singleton (now : PyDateTime) (db : DB) (uid : Nat) :
    (get_expense_summary now db uid = none ↔ get_current_user_expenses db uid = []) ∧
    (∀ (e : Expense) (s : Summary),
      get_current_user_expenses db uid = [e] → e.amount = 100 → e.date = now.date →
      get_expense_summary now db uid = some s →
      s.total_expenses = 100 ∧ s.average_expense = 100 ∧ s.largest_expense = 100 ∧
      s.expense_count = 1 ∧ s.monthly_expenses = 100) := by
  constructor
  · constructor
    · intro h
      simp only [get_expense_summary] at h
      split at h
      · rename_i hemp
        exact List.isEmpty_iff.mp hemp
      · simp at h
    · intro h
      simp only [get_expense_summary, h]
      rfl
  · intro e s hdf ham hdate hs
    simp only [get_expense_summary, hdf, List.isEmpty_cons] at hs
    rw [if_neg (by simp)] at hs
    rw [Option.some.injEq] at hs
    subst hs
    refine ⟨?_, ?_, ?_, ?_, ?_⟩
    · show sumAmounts [e] = 100
      simp [sumAmounts, ham]
    · show sumAmounts [e] / (([e] : List Expense).length : ℚ) = 100
      simp [sumAmounts, ham]
    · show maxAmount [e] = 100
      rw [show maxAmount [e] = e.amount from rfl, ham]
    · rfl
    · show sumAmounts (List.filter (fun x => x.date.month == now.date.month &&
        x.date.year == now.date.year) [e]) = 100
      simp [sumAmounts, hdate, ham]

theorem summary_empty_iff_and_singleton_witness :
    get_expense_summary nowW7 dbW7 99 = none ∧
    (sW7.total_expenses = 100 ∧ sW7.average_expense = 100 ∧ sW7.largest_expense = 100 ∧
     sW7.expense_count = 1 ∧ sW7.monthly_expenses = 100) :=
  ⟨(summary_empty_iff_and_singleton nowW7 dbW7 99).1.mpr (by decide),
   (summary_empty_iff_and_singleton nowW7 dbW7 1).2 expW7 sW7 (by decide) (by decide) (by decide)
     (by
      have hdf : get_current_user_expenses dbW7 1 = [expW7] := by decide
      simp only [get_expense_summary, hdf, sW7, expW7]
      norm_num [sumAmounts, maxAmount, modeCategory, dtToSec, toOrdinal, daysBeforeMonth,
        monthLengths, isLeapYear, nowW7, List.filter])⟩

/-- Claim C8 counterexample: the third part of the round-trip claim —
`verify_password y (hash_password x) = false` for every pair of distinct
strings — is false: `hash_password` factors through the 2^256 possible
digests while there are infinitely many strings, so by the pigeonhole
principle two distinct strings share a hash and verification accepts the
wrong password. -/
theorem hash_collision_exists :
    ∃ x y : String, x ≠ y ∧ verify_password y (hash_password x) = true := by
  obtain ⟨x, y, hne, heq⟩ :=
    Finite.exists_ne_map_eq_of_infinite
      (fun s : String => (⟨sha256Nat s, sha256Nat_lt s⟩ : Fin (2 ^ 256)))
  have hnat : sha256Nat x = sha256Nat y := congrArg Fin.val heq
  have hhash : hash_password y = hash_password x := by
    unfold hash_password
    rw [hnat]
  refine ⟨x, y, hne, ?_⟩
  unfold verify_password
  rw [hhash]
  exact beq_self_eq_true _

/-- Claim C8 as amended: `hash_password` is deterministic,
`verify_password x (hash_password x)` always holds, and
`verify_password y (hash_password x)` is false for every pair whose hashes
differ — the unrestricted claim for all `x ≠ y` fails only on hash collisions,
which exist by cardinality (see the counterexample). -/
theorem hash_verify_roundtrip_amended :
    (∀ x : String, hash_password x = hash_password x) ∧
    (∀ x : String, verify_password x (hash_password x) = true) ∧
    (∀ x y : String, hash_password x ≠ hash_password y →
      verify_password y (hash_password x) = false) := by
  refine ⟨fun x => rfl, fun x => ?_, fun x y h => ?_⟩
  · unfold verify_password
    exact beq_self_eq_true _
  · unfold verify_password
    exact beq_eq_false_iff_ne.mpr (fun hc => h hc.symm)

theorem hash_verify_roundtrip_amended_witness :
    verify_password "b" (hash_password "a") = false :=
  hash_verify_roundtrip_amended.2.2 "a" "b" (by decide)

/-- Claim C9: the storage layer's `CHECK(amount >= 0)` makes every insertion
of a negative amount fail with `sqlite3.IntegrityError` (nothing is clamped
and no row is inserted), and the invariant that every stored amount is
non-negative is preserved by every row-level operation of the application:
successful `add_expense`, `delete_expense`, `init_db` and `create_user`. -/
theorem amount_nonneg_storage (db : DB) (hinv : ∀ e ∈ db.expenses, 0 ≤ e.amount) :
    (∀ (c : String) (a : ℚ) (d : PyDate) (ds : String) (uid : Nat), a < 0 →
      add_expense db (some c) a d (some ds) uid = Except.error PyError.integrityError) ∧
    (∀ (c ds : Option String) (a : ℚ) (d : PyDate) (uid : Nat) (db2 : DB),
      add_expense db c a d ds uid = Except.ok db2 → ∀ e ∈ db2.expenses, 0 ≤ e.amount) ∧
    (∀ eid uid : Nat, ∀ e ∈ (delete_expense db eid uid).1.expenses, 0 ≤ e.amount) ∧
    (∀ e ∈ (init_db db).expenses, 0 ≤ e.amount) ∧
    (∀ (un pw : String) (em : Option String),
      ∀ e ∈ (create_user db un pw em).1.expenses, 0 ≤ e.amount) := by
  refine ⟨?_, ?_, ?_, ?_, ?_⟩
  · intro c a d ds uid ha
    show expensesInsert db c.trim a d ds.trim (some uid) = Except.error PyError.integrityError
    unfold expensesInsert
    rw [if_pos ha]
  · intro c ds a d uid db2 hok e he
    cases c with
    | none =>
      exact absurd (show Except.error PyError.attributeError = Except.ok db2 from hok) (by simp)
    | some c0 =>
      cases ds with
      | none =>
        exact absurd (show Except.error PyError.attributeError = Except.ok db2 from hok) (by simp)
      | some ds0 =>
        have hok2 : expensesInsert db c0.trim a d ds0.trim (some uid) = Except.ok db2 := hok
        unfold expensesInsert at hok2
        by_cases ha : a < 0
        · rw [if_pos ha] at hok2
          exact absurd hok2 (by simp)
        · rw [if_neg ha] at hok2
          rw [Except.ok.injEq] at hok2
          subst hok2
          rcases List.mem_append.mp he with hm | hm
          · exact hinv e hm
          · have heq : e = ⟨db.nextExpenseId, c0.trim, a, d, ds0.trim, some uid⟩ := by
              simpa using hm
            rw [heq]
            exact le_of_not_lt ha
  · intro eid uid e he
    have he2 : e ∈ db.expenses.filter (fun e => !(e.id == eid && e.user_id == some uid)) := he
    exact hinv e (List.mem_of_mem_filter he2)
  · intro e he
    rcases List.mem_map.mp he with ⟨e0, h0, heq⟩
    rw [← heq]
    split
    · exact hinv e0 h0
    · exact hinv e0 h0
  · intro un pw em e he
    unfold create_user usersInsert at he
    by_cases hany : db.users.any (fun u => u.username == un)
    · rw [if_pos hany] at he
      exact hinv e he
    · rw [if_neg hany] at he
      exact hinv e he

theorem amount_nonneg_storage_witness :
    add_expense dbW9 (some "Food") (-1) ⟨2024, 5, 10⟩ (some "oops") 1 =
      Except.error PyError.integrityError :=
  (amount_nonneg_storage dbW9 (by decide)).1 "Food" (-1) ⟨2024, 5, 10⟩ "oops" 1 (by decide)

/-- Claim C10: `add_expense` calls `.strip()` on `category` and `description`
unconditionally, so passing `None` for the description (or the category)
raises `AttributeError` and no row is inserted; absence must be encoded as a
(possibly empty) string. -/
theorem add_expense_none_description_raises (db : DB) (category : Option String) (amount : ℚ)
    (d : PyDate) (uid : Nat) :
    add_expense db category amount d none uid = Except.error PyError.attributeError ∧
    (∀ description : Option String,
      add_expense db none amount d description uid = Except.error PyError.attributeError) := by
  constructor
  · cases category with
    | none => rfl
    | some c => rfl
  · intro ds
    rfl
